import Mathlib

/-!
Verification of the iracingsdk binary cursor decoding engine.

The development shallowly embeds `src/ptr.rs`, `src/lib.rs` and the record
decoders plus main-loop fragments of `src/main.rs`. A memory region is a
function from byte addresses to byte values; the cursor (`Ptr`) carries that
region together with a mutable offset, exactly as the Rust `Ptr` carries a
base pointer and an offset. Machine integers are modelled as `Int`/`Nat`
with explicit reductions modulo powers of two where the source casts.
-/

/-- A read-only byte region: the bytes reachable from the cursor's base
pointer. Values are reduced modulo 256 on access. -/
def Mem : Type := Nat → Nat

/-- The byte stored at address `i` of the region. -/
def Mem.byte (m : Mem) (i : Nat) : Nat := m i % 256

/-- Embeds `Ptr` from src/ptr.rs: a base region and a byte offset.
`Clone` for the Rust struct copies both fields; in the embedding a `Ptr`
value is immutable, so a clone is the value itself. -/
structure Ptr where
  mem : Mem
  offset : Nat

/-- Embeds `Ptr::set` (src/ptr.rs line 16): absolute repositioning. -/
def Ptr.set (p : Ptr) (o : Nat) : Ptr := { p with offset := o }

/-- Embeds `Ptr::advance` (src/ptr.rs line 20). -/
def Ptr.advance (p : Ptr) (n : Nat) : Ptr := { p with offset := p.offset + n }

/-- Embeds `read_internal::<u8>` (src/ptr.rs line 32, instantiated by
`impl_from_ptr!(u8)`): one byte, offset advanced by `size_of::<u8>() = 1`. -/
def Ptr.readU8 (p : Ptr) : Nat × Ptr := (p.mem.byte p.offset, p.advance 1)

/-- Little-endian unsigned reassembly of 4 bytes, as `std::ptr::read::<i32>`
performs on a little-endian target. -/
def decodeU32 (m : Mem) (o : Nat) : Nat :=
  m.byte o + 256 * m.byte (o + 1) + 65536 * m.byte (o + 2) + 16777216 * m.byte (o + 3)

/-- Two's-complement reinterpretation of a 32-bit unsigned value. -/
def toI32 (n : Nat) : Int :=
  if n < 2147483648 then (n : Int) else (n : Int) - 4294967296

/-- Embeds `read_internal::<i32>` (`impl_from_ptr!(i32)`): 4 bytes consumed,
offset advanced by `size_of::<i32>() = 4`. -/
def Ptr.readI32 (p : Ptr) : Int × Ptr := (toI32 (decodeU32 p.mem p.offset), p.advance 4)

/-- Embeds `read_internal::<bool>` (`impl_from_ptr!(bool)`): one byte,
offset advanced by `size_of::<bool>() = 1`. In Rust the read is defined
only for the byte values 0 and 1 (any other byte is an invalid `bool` bit
pattern, hence undefined behavior); the model totalizes by comparing the
byte against 1, which agrees with the source on the defined cases. -/
def Ptr.readBool (p : Ptr) : Bool × Ptr := (p.mem.byte p.offset == 1, p.advance 1)

/-- Embeds the `FromPtr for [T; N]` instance (src/ptr.rs lines 73-84):
`N` elements decoded in sequence, each advancing the shared cursor. -/
def readArray {α : Type} (f : Ptr → α × Ptr) : Nat → Ptr → List α × Ptr
  | 0, p => ([], p)
  | n + 1, p =>
    let xp := f p
    let rest := readArray f n xp.2
    (xp.1 :: rest.1, rest.2)

/-- The `[u8; N]` instantiation of the array instance, used for the
`name`/`desc`/`unit` fields of `VarHeader`. -/
def Ptr.readBytes (n : Nat) (p : Ptr) : List Nat × Ptr := readArray Ptr.readU8 n p

/-- Embeds `Error` from src/lib.rs. -/
inductive Error
  | TelemetryNotPresent
  | EventNotPresent
  | ViewCreationFailed
  | UnknownVarType (code : Int)
  | WaitFailed (errno : Nat)
deriving DecidableEq

/-- Embeds `Ptr::scoped` (src/ptr.rs lines 48-63): run the decoder on a
clone of the cursor; commit the clone's state on success, keep the original
state on failure. The decoder's returned cursor on the failure branch is
exactly the partially advanced clone the source discards. -/
def Ptr.scoped {T E : Type} (f : Ptr → Except E T × Ptr) (p : Ptr) : Except E T × Ptr :=
  match f p with
  | (.ok t, clone) => (.ok t, clone)
  | (.error e, _) => (.error e, p)

/-- Embeds `Ptr::try_read` (src/ptr.rs lines 41-46): a scoped run of the
type's fallible decoder. -/
def Ptr.try_read {T : Type} (f : Ptr → Except Error T × Ptr) (p : Ptr) : Except Error T × Ptr :=
  Ptr.scoped f p

/-- Embeds `VarType` from src/main.rs lines 28-36. -/
inductive VarType
  | Char
  | Bool
  | Int
  | BitField
  | Float
  | Double
deriving DecidableEq

/-- Embeds `VarType::byte_len` (src/main.rs lines 39-45). -/
def VarType.byte_len : VarType → Nat
  | .Char | .Bool => 1
  | .Int | .BitField | .Float => 4
  | .Double => 8

/-- Embeds `TryFromPtr for VarType` (src/main.rs lines 48-64): read one
`i32`; codes 0-5 map to the six variants, any other code is rejected with
`Error::UnknownVarType` carrying the offending code. -/
def VarType.try_from_ptr (p : Ptr) : Except Error VarType × Ptr :=
  let ip := p.readI32
  (if ip.1 = 0 then .ok .Char
   else if ip.1 = 1 then .ok .Bool
   else if ip.1 = 2 then .ok VarType.Int
   else if ip.1 = 3 then .ok .BitField
   else if ip.1 = 4 then .ok .Float
   else if ip.1 = 5 then .ok .Double
   else .error (.UnknownVarType ip.1), ip.2)

/-- Embeds `VarHeader` from src/main.rs lines 66-75. The fixed-width byte
strings are lists of bytes of lengths 32/64/32 for decoded values. -/
structure VarHeader where
  type : VarType
  offset : Int
  count : Int
  count_as_time : Bool
  name : List Nat
  desc : List Nat
  unit : List Nat
deriving DecidableEq

/-- Embeds the `usize` cast `count as usize` applied to an `i32` value:
sign extension, i.e. reduction modulo 2^64 of the signed value. -/
def castI32ToUsize (n : Int) : Nat := (n % 18446744073709551616).toNat

/-- Embeds `VarHeader::byte_len` (src/main.rs lines 78-80):
`self.r#type.byte_len() * self.count as usize`, with the `usize`
multiplication wrapping modulo 2^64. -/
def VarHeader.byte_len (h : VarHeader) : Nat :=
  (h.type.byte_len * castI32ToUsize h.count) % 18446744073709551616

/-- Embeds `TryFromPtr for VarHeader` (src/main.rs lines 83-107): a scoped
decode of a fallible `VarType` followed by unconditional reads of
`offset`, `count`, `count_as_time`, a 3-byte padding skip, and the three
fixed-width byte strings. -/
def VarHeader.try_from_ptr (p0 : Ptr) : Except Error VarHeader × Ptr :=
  Ptr.scoped (fun p =>
    match Ptr.try_read VarType.try_from_ptr p with
    | (.error e, p1) => (.error e, p1)
    | (.ok t, p1) =>
      let op := p1.readI32
      let cp := op.2.readI32
      let bp := cp.2.readBool
      let p5 := bp.2.advance 3
      let np := Ptr.readBytes 32 p5
      let dp := Ptr.readBytes 64 np.2
      let up := Ptr.readBytes 32 dp.2
      (.ok ⟨t, op.1, cp.1, bp.1, np.1, dp.1, up.1⟩, up.2)) p0

/-- Embeds `VarBuf` from src/main.rs lines 109-113. -/
structure VarBuf where
  tick_count : Int
  buf_offset : Int
deriving DecidableEq

/-- Embeds `FromPtr for VarBuf` (src/main.rs lines 115-124): two `i32`
reads followed by an 8-byte reserved skip. -/
def VarBuf.from_ptr (p : Ptr) : VarBuf × Ptr :=
  let tp := p.readI32
  let bp := tp.2.readI32
  (⟨tp.1, bp.1⟩, bp.2.advance 8)

/-- Embeds `SdkHeader` from src/main.rs lines 126-139. The decoded
`var_bufs` array of 4 entries is modelled as a list. -/
structure SdkHeader where
  version : Int
  status : Int
  tick_rate : Int
  session_info_update : Int
  session_info_len : Int
  session_info_offset : Int
  num_vars : Int
  var_header_offset : Int
  num_buf : Int
  buf_len : Int
  var_bufs : List VarBuf
deriving DecidableEq

/-- Embeds `FromPtr for SdkHeader` (src/main.rs lines 141-165): ten `i32`
reads in declared order, an 8-byte padding skip, then the four `VarBuf`
entries in sequence. -/
def SdkHeader.from_ptr (p : Ptr) : SdkHeader × Ptr :=
  let f1 := p.readI32
  let f2 := f1.2.readI32
  let f3 := f2.2.readI32
  let f4 := f3.2.readI32
  let f5 := f4.2.readI32
  let f6 := f5.2.readI32
  let f7 := f6.2.readI32
  let f8 := f7.2.readI32
  let f9 := f8.2.readI32
  let f10 := f9.2.readI32
  let pa := f10.2.advance 8
  let b0 := VarBuf.from_ptr pa
  let b1 := VarBuf.from_ptr b0.2
  let b2 := VarBuf.from_ptr b1.2
  let b3 := VarBuf.from_ptr b2.2
  (⟨f1.1, f2.1, f3.1, f4.1, f5.1, f6.1, f7.1, f8.1, f9.1, f10.1,
    [b0.1, b1.1, b2.1, b3.1]⟩, b3.2)

/-- Embeds the fold performed by Rust's `Iterator::max_by` on a non-empty
remainder: the accumulator is kept only when it is strictly greater,
so among equal keys the later element wins. -/
def maxFold {α : Type} (key : α → Int) (acc : α) : List α → α
  | [] => acc
  | y :: ys => maxFold key (if key y < key acc then acc else y) ys

/-- Embeds `Iterator::max_by_key` as used on the `var_bufs` array in
src/main.rs lines 265-269. -/
def max_by_key {α : Type} (key : α → Int) : List α → Option α
  | [] => none
  | x :: xs => some (maxFold key x xs)

/-- The buffer freshness resolver of src/main.rs lines 265-269:
`var_bufs.iter().max_by_key(|v| v.tick_count)`. -/
def selectNewest (bufs : List VarBuf) : Option VarBuf :=
  max_by_key VarBuf.tick_count bufs

/-- Embeds src/main.rs lines 265-270: select the newest buffer and
reposition the cursor to its payload offset. The `unwrap` in the source
can only be reached with the 4 entries of a decoded header, so the
`none` branch (which would panic in Rust) is unreachable there. -/
def repositionToNewest (h : SdkHeader) (p : Ptr) : Ptr :=
  match selectNewest h.var_bufs with
  | some b => p.set (castI32ToUsize b.buf_offset)
  | none => p

/-- Embeds the `for _ in 0..sdk_header.num_vars` loop of src/main.rs lines
253-256: decode records in sequence through the transactional path,
propagating the first failure via `?`. -/
def decodeVarHeaders : Nat → Ptr → Except Error (List VarHeader) × Ptr
  | 0, p => (.ok [], p)
  | n + 1, p =>
    match Ptr.try_read VarHeader.try_from_ptr p with
    | (.error e, p1) => (.error e, p1)
    | (.ok h, p1) =>
      match decodeVarHeaders n p1 with
      | (.error e, p2) => (.error e, p2)
      | (.ok hs, p2) => (.ok (h :: hs), p2)

/-- Embeds src/main.rs lines 247-256 (one loop iteration's decode phase):
a fresh cursor at the view's base, an `SdkHeader` decode, an absolute
reposition to `var_header_offset`, then `num_vars` transactional
`VarHeader` decodes. A negative `num_vars` runs the loop zero times, as
the empty Rust range `0..n` does. -/
def decodeIteration (m : Mem) : Except Error (SdkHeader × List VarHeader) :=
  let hp := SdkHeader.from_ptr (Ptr.mk m 0)
  let p2 := hp.2.set (castI32ToUsize hp.1.var_header_offset)
  match decodeVarHeaders (Int.toNat hp.1.num_vars) p2 with
  | (.error e, _) => .error e
  | (.ok hs, _) => .ok (hp.1, hs)

/-- Embeds `Connection` from src/main.rs lines 167-170. Handles are modelled
as machine words, with 0 the null handle. -/
structure Connection where
  mapping : Nat
  event : Nat
deriving DecidableEq

/-- Embeds `Connection::open` (src/main.rs lines 173-195). The results of
the two OS acquisition calls (`OpenFileMappingW`, `OpenEventW`) are the
parameters. Note that the source's second null check (line 190) tests
`mapping.is_null()` again, not `event.is_null()`; the model reproduces
that check faithfully. -/
def Connection.«open» (mapping event : Nat) : Except Error Connection :=
  if mapping = 0 then .error .TelemetryNotPresent
  else if mapping = 0 then .error .EventNotPresent
  else .ok ⟨mapping, event⟩

/-! ## Concrete memories used by witnesses and counterexamples -/

/-- The all-zero region. -/
def memZ : Mem := fun _ => 0

/-- The region every byte of which is 99; its first 4 bytes decode to the
i32 value 1667457891, which is not a valid `VarType` code. -/
def mem99 : Mem := fun _ => 99

/-! ## Generic facts about the transactional cursor -/

theorem scoped_of_error {T E : Type} (f : Ptr → Except E T × Ptr) (p : Ptr) (e : E)
    (h : (f p).1 = .error e) : Ptr.scoped f p = (.error e, p) := by
  unfold Ptr.scoped
  rcases hfp : f p with ⟨res, p1⟩
  rw [hfp] at h
  cases res with
  | error e2 => simp only at h; simp [h]
  | ok t => simp at h

theorem scoped_of_ok {T E : Type} (f : Ptr → Except E T × Ptr) (p : Ptr) (t : T)
    (h : (f p).1 = .ok t) : Ptr.scoped f p = (.ok t, (f p).2) := by
  unfold Ptr.scoped
  rcases hfp : f p with ⟨res, p1⟩
  rw [hfp] at h
  cases res with
  | error e2 => simp at h
  | ok t2 => simp only at h; simp [hfp, h]

/-- C2: a fallible decode run through try_read/scoped that fails leaves the
cursor exactly as it was before the call — same region, same offset; no field
read performed inside the failed attempt leaves any trace in the original
cursor's state. -/
theorem try_read_failure_rolls_back {T : Type} (f : Ptr → Except Error T × Ptr) (p : Ptr)
    (e : Error) (h : (Ptr.try_read f p).1 = .error e) : (Ptr.try_read f p).2 = p := by
  unfold Ptr.try_read Ptr.scoped at h ⊢
  rcases hfp : f p with ⟨res, p1⟩
  cases res <;> simp_all

/-- Witness for C2: a VarHeader decode whose VarType step rejects code
1667457891 (the four bytes 99 99 99 99) leaves the cursor at its original
offset 3 with the original region. -/
theorem try_read_failure_rolls_back_witness :
    (Ptr.try_read VarHeader.try_from_ptr (Ptr.mk mem99 3)).2 = Ptr.mk mem99 3 :=
  try_read_failure_rolls_back VarHeader.try_from_ptr (Ptr.mk mem99 3)
    (.UnknownVarType 1667457891) rfl

/-- C3: a fallible decode run through try_read/scoped that succeeds commits
the clone's final cursor unchanged: the call returns exactly what the
sequence of unconditional reads and advances of the same fields, applied
directly to the cursor, produces. -/
theorem try_read_success_commits {T : Type} (f : Ptr → Except Error T × Ptr) (p p2 : Ptr)
    (t : T) (h : f p = (.ok t, p2)) : Ptr.try_read f p = (.ok t, p2) := by
  unfold Ptr.try_read Ptr.scoped
  rw [h]

/-- Witness for C3: a successful VarType decode at offset 0 of the all-zero
region commits the directly computed result, the cursor 4 bytes further. -/
theorem try_read_success_commits_witness :
    Ptr.try_read VarType.try_from_ptr (Ptr.mk memZ 0) = (.ok .Char, Ptr.mk memZ 4) :=
  try_read_success_commits VarType.try_from_ptr (Ptr.mk memZ 0) (Ptr.mk memZ 4) .Char rfl

/-- C5: evaluating Connection::open at the failing input — a non-null
mapping handle (1) with a null event handle (0) — yields Ok with the null
event handle instead of the EventNotPresent failure, because the source's
second null check re-tests the mapping handle; the mapping acquisition
failure itself is detected as described. -/
theorem connection_open_misses_null_event :
    Connection.«open» 1 0 = .ok ⟨1, 0⟩ ∧
    Connection.«open» 0 7 = .error .TelemetryNotPresent := ⟨rfl, rfl⟩

/-- The region whose first 4 bytes decode to the i32 code 6 (not a valid
VarType code), all other bytes zero. -/
def mem6 : Mem := fun i => if i = 0 then 6 else 0

/-- C4: decoding a VarType consumes one 4-byte integer; the codes 0-5 yield
Char, Bool, Int, BitField, Float, Double, whose byte widths are 1,1,4,4,4,8;
any other code x yields the error UnknownVarType x — no default variant and
no panic, the decoder being total. -/
theorem varType_decode_total (p : Ptr) (c : Int)
    (hc : toI32 (decodeU32 p.mem p.offset) = c) :
    (VarType.try_from_ptr p).2 = p.advance 4 ∧
    (c = 0 → (VarType.try_from_ptr p).1 = .ok .Char) ∧
    (c = 1 → (VarType.try_from_ptr p).1 = .ok .Bool) ∧
    (c = 2 → (VarType.try_from_ptr p).1 = .ok VarType.Int) ∧
    (c = 3 → (VarType.try_from_ptr p).1 = .ok .BitField) ∧
    (c = 4 → (VarType.try_from_ptr p).1 = .ok .Float) ∧
    (c = 5 → (VarType.try_from_ptr p).1 = .ok .Double) ∧
    (c < 0 ∨ 5 < c → (VarType.try_from_ptr p).1 = .error (.UnknownVarType c)) ∧
    VarType.byte_len .Char = 1 ∧ VarType.byte_len .Bool = 1 ∧
    VarType.byte_len VarType.Int = 4 ∧ VarType.byte_len .BitField = 4 ∧
    VarType.byte_len .Float = 4 ∧ VarType.byte_len .Double = 8 := by
  have hfst : (VarType.try_from_ptr p).1 =
      (if c = 0 then .ok .Char else if c = 1 then .ok .Bool
       else if c = 2 then .ok VarType.Int else if c = 3 then .ok .BitField
       else if c = 4 then .ok .Float else if c = 5 then .ok .Double
       else .error (.UnknownVarType c)) := by
    simp only [VarType.try_from_ptr, Ptr.readI32, hc]
  refine ⟨rfl, ?_, ?_, ?_, ?_, ?_, ?_, ?_, rfl, rfl, rfl, rfl, rfl, rfl⟩
  · intro h; rw [hfst]; simp [h]
  · intro h; rw [hfst]; subst h; norm_num
  · intro h; rw [hfst]; subst h; norm_num
  · intro h; rw [hfst]; subst h; norm_num
  · intro h; rw [hfst]; subst h; norm_num
  · intro h; rw [hfst]; subst h; norm_num
  · intro h
    rw [hfst]
    have h0 : c ≠ 0 := by omega
    have h1 : c ≠ 1 := by omega
    have h2 : c ≠ 2 := by omega
    have h3 : c ≠ 3 := by omega
    have h4 : c ≠ 4 := by omega
    have h5 : c ≠ 5 := by omega
    simp [h0, h1, h2, h3, h4, h5]

/-- Witness for C4: the integer code 6 is rejected carrying exactly 6. -/
theorem varType_decode_total_witness :
    (VarType.try_from_ptr (Ptr.mk mem6 0)).1 = .error (.UnknownVarType 6) :=
  (varType_decode_total (Ptr.mk mem6 0) 6 rfl).2.2.2.2.2.2.2.1 (by decide)

/-! ## Layout lemmas: cursor movement of each decoder -/

theorem readBytes_snd (n : Nat) (p : Ptr) :
    (Ptr.readBytes n p).2 = Ptr.mk p.mem (p.offset + n) := by
  induction n generalizing p with
  | zero => simp [Ptr.readBytes, readArray]
  | succ m ih =>
    have step : (Ptr.readBytes (m + 1) p).2 = (Ptr.readBytes m (p.advance 1)).2 := rfl
    rw [step, ih]
    simp [Ptr.advance, Ptr.mk.injEq]
    omega

theorem varBuf_snd (p : Ptr) : (VarBuf.from_ptr p).2 = Ptr.mk p.mem (p.offset + 16) := by
  simp only [VarBuf.from_ptr, Ptr.readI32, Ptr.advance, Ptr.mk.injEq]

theorem sdkHeader_snd (p : Ptr) : (SdkHeader.from_ptr p).2 = Ptr.mk p.mem (p.offset + 112) := by
  simp only [SdkHeader.from_ptr, VarBuf.from_ptr, Ptr.readI32, Ptr.advance, Ptr.mk.injEq]

theorem varHeader_ok_snd (p : Ptr) (h : (VarHeader.try_from_ptr p).1.isOk = true) :
    (VarHeader.try_from_ptr p).2 = Ptr.mk p.mem (p.offset + 144) := by
  unfold VarHeader.try_from_ptr Ptr.try_read Ptr.scoped VarType.try_from_ptr at h ⊢
  simp only [Ptr.readI32, Ptr.readBool, Ptr.advance, Ptr.readU8] at h ⊢
  split_ifs at h ⊢ <;>
    simp_all [readBytes_snd, Ptr.advance, Ptr.mk.injEq, Except.toBool]

/-- C6: an SdkHeader decode reads its ten 4-byte fields, skips 8 padding
bytes, and decodes 4 VarBuf entries of 4+4+8 bytes each, leaving the cursor
112 bytes past its start; each VarBuf decode moves the cursor 16 bytes; a
successful VarHeader decode (4-byte type, 4-byte offset, 4-byte count,
1-byte flag, 3 padding bytes, 32+64+32 string bytes) leaves the cursor 144
bytes past where it started. -/
theorem decode_layout :
    (∀ p : Ptr, ((SdkHeader.from_ptr p).2).offset = p.offset + 112) ∧
    (∀ p : Ptr, ((VarBuf.from_ptr p).2).offset = p.offset + 16) ∧
    (∀ p : Ptr, (VarHeader.try_from_ptr p).1.isOk = true →
      ((VarHeader.try_from_ptr p).2).offset = p.offset + 144) := by
  refine ⟨fun p => ?_, fun p => ?_, fun p h => ?_⟩
  · rw [sdkHeader_snd]
  · rw [varBuf_snd]
  · rw [varHeader_ok_snd p h]

/-- Witness for C6: a successful VarHeader decode starting at offset 10 of
the all-zero region leaves the cursor at offset 154. -/
theorem decode_layout_witness :
    ((VarHeader.try_from_ptr (Ptr.mk memZ 10)).2).offset = 10 + 144 :=
  decode_layout.2.2 (Ptr.mk memZ 10) rfl

theorem decodeVarHeaders_succ (n : Nat) (p : Ptr) :
    decodeVarHeaders (n + 1) p =
      (match Ptr.try_read VarHeader.try_from_ptr p with
       | (.error e, p1) => (.error e, p1)
       | (.ok h, p1) =>
         match decodeVarHeaders n p1 with
         | (.error e, p2) => (.error e, p2)
         | (.ok hs, p2) => (.ok (h :: hs), p2)) := by
  cases n <;> rfl

/-- C7: each loop iteration repositions the cursor absolutely to
`var_header_offset` after the SdkHeader decode and then decodes `num_vars`
VarHeader records through the transactional path; when a decode fails, the
iteration's result is the error of the first failing record — every record
before it decoded successfully, and the result is the same as if no record
past the failing one had been requested at all. -/
theorem loop_first_failure :
    (∀ m : Mem, decodeIteration m =
      (match decodeVarHeaders (Int.toNat (SdkHeader.from_ptr (Ptr.mk m 0)).1.num_vars)
          (Ptr.mk m (castI32ToUsize (SdkHeader.from_ptr (Ptr.mk m 0)).1.var_header_offset)) with
        | (.error e, _) => .error e
        | (.ok hs, _) => .ok ((SdkHeader.from_ptr (Ptr.mk m 0)).1, hs))) ∧
    (∀ (n : Nat) (p : Ptr) (e : Error), (decodeVarHeaders n p).1 = .error e →
      ∃ (k : Nat) (hs : List VarHeader) (p2 : Ptr), k < n ∧
        decodeVarHeaders k p = (.ok hs, p2) ∧
        (Ptr.try_read VarHeader.try_from_ptr p2).1 = .error e ∧
        decodeVarHeaders n p = decodeVarHeaders (k + 1) p) := by
  constructor
  · intro m
    simp only [decodeIteration, sdkHeader_snd, Ptr.set]
  · intro n
    induction n with
    | zero => intro p e h; simp [decodeVarHeaders] at h
    | succ m ih =>
      intro p e h
      rcases htr : Ptr.try_read VarHeader.try_from_ptr p with ⟨res, p1⟩
      cases res with
      | error e2 =>
        have hdm : decodeVarHeaders (m + 1) p = (.error e2, p1) := by
          simp only [decodeVarHeaders_succ, htr]
        rw [hdm] at h
        simp only [Except.error.injEq] at h
        rw [h] at htr hdm
        refine ⟨0, [], p, Nat.succ_pos m, rfl, by rw [htr], ?_⟩
        have h1 : decodeVarHeaders 1 p = (.error e, p1) := by
          simp only [decodeVarHeaders_succ, htr]
        rw [hdm, h1]
      | ok hd =>
        have hdm : decodeVarHeaders (m + 1) p =
            (match decodeVarHeaders m p1 with
             | (.error e2, q) => (.error e2, q)
             | (.ok hs, q) => (.ok (hd :: hs), q)) := by
          simp only [decodeVarHeaders_succ, htr]
        rcases hrec : decodeVarHeaders m p1 with ⟨res2, p2⟩
        cases res2 with
        | ok hs =>
          rw [hdm, hrec] at h
          simp at h
        | error e2 =>
          rw [hdm, hrec] at h
          simp only [Except.error.injEq] at h
          rw [h] at hrec
          obtain ⟨k, hs, q, hk, hok, hfail, heq⟩ := ih p1 e (by rw [hrec])
          refine ⟨k + 1, hd :: hs, q, by omega, ?_, hfail, ?_⟩
          · simp only [decodeVarHeaders_succ, htr, hok]
          · rw [hdm, heq]
            simp only [decodeVarHeaders_succ, htr]

/-- Witness for C7: on the all-99 region the very first VarHeader decode
fails with code 1667457891, so a 3-record table stops at record 0. -/
theorem loop_first_failure_witness :
    ∃ (k : Nat) (hs : List VarHeader) (p2 : Ptr), k < 3 ∧
      decodeVarHeaders k (Ptr.mk mem99 0) = (.ok hs, p2) ∧
      (Ptr.try_read VarHeader.try_from_ptr p2).1 = .error (.UnknownVarType 1667457891) ∧
      decodeVarHeaders 3 (Ptr.mk mem99 0) = decodeVarHeaders (k + 1) (Ptr.mk mem99 0) :=
  loop_first_failure.2 3 (Ptr.mk mem99 0) (.UnknownVarType 1667457891) rfl

/-! ## The unconditional read path -/

/-- The unconditional read operations of the program, one constructor per
source `FromPtr` implementation: the `u8`, `i32` and `bool` primitives from
`impl_from_ptr!` and the `[T; N]` array instance. -/
inductive ReadOp
  | u8
  | i32
  | bool
  | arr (elem : ReadOp) (n : Nat)
deriving DecidableEq

/-- The byte width consumed by an operation: `size_of` for the primitives,
N times the element width for `[T; N]`. -/
def ReadOp.width : ReadOp → Nat
  | .u8 => 1
  | .i32 => 4
  | .bool => 1
  | .arr t n => n * t.width

/-- The cursor effect of one unconditional read, in terms of the source
read functions; an array read iterates its element's read. -/
def ReadOp.run : ReadOp → Ptr → Ptr
  | .u8, p => (p.readU8).2
  | .i32, p => (p.readI32).2
  | .bool, p => (p.readBool).2
  | .arr t n, p => Nat.iterate t.run n p

/-- A sequence of unconditional reads applied to the shared cursor. -/
def runSeq : List ReadOp → Ptr → Ptr
  | [], p => p
  | op :: rest, p => runSeq rest (op.run p)

theorem readOp_run_offset (op : ReadOp) : ∀ p : Ptr, (op.run p).offset = p.offset + op.width := by
  induction op with
  | u8 => intro p; rfl
  | i32 => intro p; rfl
  | bool => intro p; rfl
  | arr t n ih =>
    have key : ∀ (k : Nat) (p : Ptr),
        (Nat.iterate t.run k p).offset = p.offset + k * t.width := by
      intro k
      induction k with
      | zero => intro p; simp
      | succ m ihm =>
        intro p
        rw [Function.iterate_succ_apply, ihm, ih]
        ring
    intro p
    simp only [ReadOp.run, ReadOp.width]
    rw [key]

/-- C8: a sequence of unconditional reads of widths w1..wn starting at
offset o ends at offset o + w1 + ... + wn, whatever the byte values are
(no byte value occurs in the formula); the source's byte-array instance is
the iterated element read, and an N-element array read whose element read
advances by w advances the shared cursor by N * w. -/
theorem read_advance_law :
    (∀ (ops : List ReadOp) (p : Ptr),
      (runSeq ops p).offset = p.offset + (ops.map ReadOp.width).sum) ∧
    (∀ (n : Nat) (p : Ptr), (Ptr.readBytes n p).2 = (ReadOp.arr ReadOp.u8 n).run p) ∧
    (∀ {α : Type} (f : Ptr → α × Ptr) (w : Nat),
      (∀ q : Ptr, ((f q).2).offset = q.offset + w) →
      ∀ (n : Nat) (p : Ptr), ((readArray f n p).2).offset = p.offset + n * w) := by
  refine ⟨?_, ?_, ?_⟩
  · intro ops
    induction ops with
    | nil => intro p; simp [runSeq]
    | cons op rest ih =>
      intro p
      simp only [runSeq, List.map_cons, List.sum_cons]
      rw [ih (op.run p), readOp_run_offset]
      ring
  · intro n
    induction n with
    | zero => intro p; rfl
    | succ m ih =>
      intro p
      have h1 : (Ptr.readBytes (m + 1) p).2 = (Ptr.readBytes m (p.advance 1)).2 := rfl
      rw [h1, ih]
      simp only [ReadOp.run]
      rw [Function.iterate_succ_apply]
      rfl
  · intro α f w hf n
    induction n with
    | zero => intro p; simp [readArray]
    | succ m ih =>
      intro p
      have h1 : (readArray f (m + 1) p).2 = (readArray f m ((f p).2)).2 := rfl
      rw [h1, ih, hf]
      ring

/-- Witness for C8: three i32 reads starting at offset 5 end at offset 17,
via the array law with element width 4. -/
theorem read_advance_law_witness :
    ((readArray Ptr.readI32 3 (Ptr.mk memZ 5)).2).offset = 5 + 3 * 4 :=
  read_advance_law.2.2 Ptr.readI32 4 (fun _ => rfl) 3 (Ptr.mk memZ 5)

/-- Rust validity of a byte pattern for the value type consumed by an
unconditional read, per the language rules `std::ptr::read` relies on:
every pattern of the right length is valid for `u8` and `i32`; only the
bytes 0x00 and 0x01 are valid for `bool`; an array pattern is valid when
every element chunk is. -/
def ReadOp.validPattern : ReadOp → List Nat → Bool
  | .u8, bs => bs.length == 1
  | .i32, bs => bs.length == 4
  | .bool, bs => bs == [0] || bs == [1]
  | .arr t n, bs =>
    bs.length == n * t.width &&
      (List.range n).all (fun i => t.validPattern ((bs.drop (i * t.width)).take t.width))

/-- A region whose byte at address 12 — the `count_as_time` position inside
a VarHeader record decoded from offset 0 — is 2, all other bytes zero. -/
def memB : Mem := fun i => if i = 12 then 2 else 0

/-- C9: the unconditional read path is not restricted to types that admit
every byte pattern of their width: `bool` is read unconditionally (the
`count_as_time` field of `VarHeader`), yet the byte 2 is not a valid
`bool` bit pattern (unlike for `u8`, for which every single byte is
valid). The decode of a record whose `count_as_time` byte is 2 still
reports success, where the Rust source hits undefined behavior instead of
producing a defined value. -/
theorem bool_read_invalid_pattern :
    ReadOp.width ReadOp.bool = 1 ∧
    ReadOp.validPattern ReadOp.bool [2] = false ∧
    ReadOp.validPattern ReadOp.u8 [2] = true ∧
    Mem.byte memB 12 = 2 ∧
    (VarHeader.try_from_ptr (Ptr.mk memB 0)).1.isOk = true :=
  ⟨rfl, rfl, rfl, rfl, rfl⟩

/-! ## The freshness resolver -/

theorem maxFold_spec {α : Type} (key : α → Int) :
    ∀ (ys : List α) (acc : α),
      (maxFold key acc ys = acc ∧ ∀ z ∈ ys, key z < key acc) ∨
      (∃ l₁ w l₂, ys = l₁ ++ w :: l₂ ∧ maxFold key acc ys = w ∧
        key acc ≤ key w ∧ (∀ z ∈ l₁, key z ≤ key w) ∧ (∀ z ∈ l₂, key z < key w)) := by
  intro ys
  induction ys with
  | nil => intro acc; left; exact ⟨rfl, by simp⟩
  | cons y ys ih =>
    intro acc
    by_cases hy : key y < key acc
    · have hstep : maxFold key acc (y :: ys) = maxFold key acc ys := by
        simp [maxFold, hy]
      rcases ih acc with ⟨heq, hall⟩ | ⟨l₁, w, l₂, hsplit, heq, hle, hl1, hl2⟩
      · left
        refine ⟨by rw [hstep, heq], ?_⟩
        intro z hz
        rcases List.mem_cons.mp hz with rfl | hz2
        · exact hy
        · exact hall z hz2
      · right
        refine ⟨y :: l₁, w, l₂, by simp [hsplit], by rw [hstep, heq], hle, ?_, hl2⟩
        intro z hz
        rcases List.mem_cons.mp hz with rfl | hz2
        · exact le_trans (le_of_lt hy) hle
        · exact hl1 z hz2
    · have hy2 : key acc ≤ key y := le_of_not_lt hy
      have hstep : maxFold key acc (y :: ys) = maxFold key y ys := by
        simp [maxFold, hy]
      rcases ih y with ⟨heq, hall⟩ | ⟨l₁, w, l₂, hsplit, heq, hle, hl1, hl2⟩
      · right
        exact ⟨[], y, ys, rfl, by rw [hstep, heq], hy2, by simp, hall⟩
      · right
        refine ⟨y :: l₁, w, l₂, by simp [hsplit], by rw [hstep, heq],
          le_trans hy2 hle, ?_, hl2⟩
        intro z hz
        rcases List.mem_cons.mp hz with rfl | hz2
        · exact hle
        · exact hl1 z hz2

theorem selectNewest_spec (bufs : List VarBuf) (hne : bufs ≠ []) :
    ∃ l₁ w l₂, bufs = l₁ ++ w :: l₂ ∧ selectNewest bufs = some w ∧
      (∀ z ∈ l₁, z.tick_count ≤ w.tick_count) ∧
      (∀ z ∈ l₂, z.tick_count < w.tick_count) := by
  rcases bufs with _ | ⟨x, xs⟩
  · exact absurd rfl hne
  · rcases maxFold_spec VarBuf.tick_count xs x with ⟨heq, hall⟩ |
      ⟨l₁, w, l₂, hsplit, heq, hle, hl1, hl2⟩
    · exact ⟨[], x, xs, rfl, by simp [selectNewest, max_by_key, heq], by simp, hall⟩
    · refine ⟨x :: l₁, w, l₂, by simp [hsplit],
        by simp [selectNewest, max_by_key, heq], ?_, hl2⟩
      intro z hz
      rcases List.mem_cons.mp hz with rfl | hz2
      · exact hle
      · exact hl1 z hz2

/-- C1 (amended): for every decoded SdkHeader the freshness resolver
selects the VarBuf entry with the maximum revision, and when several
entries share the maximum it selects the LAST such entry in source order
(entries before the winner have revision at most the winner's, entries
after it have strictly smaller revision); the cursor is then repositioned
to the winner's payload offset. -/
theorem freshness_selects_last_max (h : SdkHeader) (p : Ptr) (hne : h.var_bufs ≠ []) :
    ∃ l₁ w l₂,
      h.var_bufs = l₁ ++ w :: l₂ ∧
      selectNewest h.var_bufs = some w ∧
      (∀ z ∈ l₁, z.tick_count ≤ w.tick_count) ∧
      (∀ z ∈ l₂, z.tick_count < w.tick_count) ∧
      (repositionToNewest h p).offset = castI32ToUsize w.buf_offset := by
  obtain ⟨l₁, w, l₂, hsplit, hsel, hl1, hl2⟩ := selectNewest_spec h.var_bufs hne
  exact ⟨l₁, w, l₂, hsplit, hsel, hl1, hl2,
    by simp [repositionToNewest, hsel, Ptr.set]⟩

/-- Witness for C1: a header with revisions [3,7,7,2] and pairwise distinct
payload offsets, instantiated at the all-zero region. -/
theorem freshness_selects_last_max_witness :
    ∃ l₁ w l₂,
      (SdkHeader.mk 0 0 0 0 0 0 0 0 0 0
        [⟨3, 20⟩, ⟨7, 21⟩, ⟨7, 22⟩, ⟨2, 23⟩]).var_bufs = l₁ ++ w :: l₂ ∧
      selectNewest (SdkHeader.mk 0 0 0 0 0 0 0 0 0 0
        [⟨3, 20⟩, ⟨7, 21⟩, ⟨7, 22⟩, ⟨2, 23⟩]).var_bufs = some w ∧
      (∀ z ∈ l₁, z.tick_count ≤ w.tick_count) ∧
      (∀ z ∈ l₂, z.tick_count < w.tick_count) ∧
      (repositionToNewest (SdkHeader.mk 0 0 0 0 0 0 0 0 0 0
        [⟨3, 20⟩, ⟨7, 21⟩, ⟨7, 22⟩, ⟨2, 23⟩]) (Ptr.mk memZ 0)).offset =
        castI32ToUsize w.buf_offset :=
  freshness_selects_last_max _ (Ptr.mk memZ 0) (by simp)

/-- The region encoding an SdkHeader whose four VarBuf entries carry the
revisions [3,7,7,2] and the payload offsets [20,21,22,23]; the VarBuf array
lives at bytes 48..111, with each entry's revision at its start and its
payload offset 4 bytes later. -/
def memC1 : Mem := fun a =>
  if a = 48 then 3 else if a = 52 then 20
  else if a = 64 then 7 else if a = 68 then 21
  else if a = 80 then 7 else if a = 84 then 22
  else if a = 96 then 2 else if a = 100 then 23 else 0

/-- Counterexample to C1 as stated: for a decoded SdkHeader with revisions
[3,7,7,2] the resolver selects the index-2 entry (payload offset 22), not
the first maximum at index 1 (payload offset 21) that the claim requires. -/
theorem freshness_first_max_counterexample :
    (SdkHeader.from_ptr (Ptr.mk memC1 0)).1.var_bufs =
      [⟨3, 20⟩, ⟨7, 21⟩, ⟨7, 22⟩, ⟨2, 23⟩] ∧
    selectNewest (SdkHeader.from_ptr (Ptr.mk memC1 0)).1.var_bufs = some ⟨7, 22⟩ ∧
    ¬ selectNewest (SdkHeader.from_ptr (Ptr.mk memC1 0)).1.var_bufs = some ⟨7, 21⟩ := by
  refine ⟨by decide, by decide, by decide⟩

/-- C10: byte_len is the VarType width times the count for every
non-negative count (the product stays far below 2^64); for a negative
count the `as usize` cast wraps the operand to count + 2^64, and the
result can never equal width * count, which is negative. -/
theorem byte_len_wrap (h : VarHeader)
    (h1 : -2147483648 ≤ h.count) (h2 : h.count < 2147483648) :
    (0 ≤ h.count → (h.byte_len : Int) = h.type.byte_len * h.count) ∧
    (h.count < 0 →
      castI32ToUsize h.count = (h.count + 18446744073709551616).toNat ∧
      (h.byte_len : Int) ≠ h.type.byte_len * h.count) := by
  obtain ⟨t, off, cnt, cat, nm, ds, un⟩ := h
  simp only [VarHeader.byte_len, castI32ToUsize] at *
  cases t <;> simp only [VarType.byte_len] <;>
    refine ⟨fun hc => ?_, fun hc => ⟨?_, ?_⟩⟩ <;> omega

/-- Witness for C10: a Float variable with count 7 has byte_len 4 * 7. -/
theorem byte_len_wrap_witness :
    ((VarHeader.mk .Float 0 7 false [] [] []).byte_len : Int) =
      VarType.byte_len .Float * 7 :=
  (byte_len_wrap (VarHeader.mk .Float 0 7 false [] [] []) (by decide) (by decide)).1
    (by decide)
